import Mathlib

/-!
Shallow embedding of the inventory core of `src/main.py` (a Telegram
inventory bot).  The authoritative store is `self.data`: a JSON-backed dict
whose keys are fixed at the four location names by `create_default_data`
(`refrigerator_1`, `refrigerator_2`, `refrigerator_3`, `cupboard`); no
operation ever adds another top-level key.  We model it as a structure with
one field per location, and a location's item dict as an association list
(Python dicts preserve insertion order; new keys are appended at the end).

Persistence (`save_data`) writes a JSON file and returns a success flag;
the in-memory mutation happens regardless of the save outcome.  We model
the save outcome as an explicit `saveOk : Bool` argument to each mutating
operation, returned as the operation's reported result.
-/

namespace Screatch

/-- Item record of a location dict: value under an item-name key, holding
`quantity` (int) and `category` (string or None), as built by
`add_item` / `add_to_cupboard` / `move_from_cupboard` in `src/main.py`. -/
structure Item where
  quantity : Int
  category : Option String
deriving DecidableEq, Repr

/-- A location's item dict, as an insertion-ordered association list. -/
abbrev LocMap := List (String × Item)

/-- Python dict lookup `m.get(k)` / `m[k]` on an association list. -/
def alookup {α : Type} : List (String × α) → String → Option α
  | [], _ => none
  | (k, v) :: t, n => if k = n then some v else alookup t n

/-- In-place value update `m[k] = f(m[k])` of an existing key
(callers check presence first, as the Python code does). -/
def updateItem (m : LocMap) (name : String) (f : Item → Item) : LocMap :=
  m.map (fun p => if p.1 = name then (p.1, f p.2) else p)

/-- Python `del m[k]`. -/
def eraseItem (m : LocMap) (name : String) : LocMap :=
  m.filter (fun p => !(p.1 == name))

/-- Quantity read with default 0: `m.get(name, dict()).get('quantity', 0)`. -/
def qtyVal (m : LocMap) (name : String) : Int :=
  match alookup m name with
  | some it => it.quantity
  | none => 0

/-- The four fixed locations of `create_default_data`. -/
inductive Loc where
  | refrigerator_1
  | refrigerator_2
  | refrigerator_3
  | cupboard
deriving DecidableEq, Repr

/-- The store `self.data`: one item dict per fixed location. -/
structure Store where
  refrigerator_1 : LocMap
  refrigerator_2 : LocMap
  refrigerator_3 : LocMap
  cupboard : LocMap
deriving DecidableEq, Repr

def Store.getL (s : Store) : Loc → LocMap
  | .refrigerator_1 => s.refrigerator_1
  | .refrigerator_2 => s.refrigerator_2
  | .refrigerator_3 => s.refrigerator_3
  | .cupboard => s.cupboard

def Store.setL (s : Store) : Loc → LocMap → Store
  | .refrigerator_1, m => { s with refrigerator_1 := m }
  | .refrigerator_2, m => { s with refrigerator_2 := m }
  | .refrigerator_3, m => { s with refrigerator_3 := m }
  | .cupboard, m => { s with cupboard := m }

/-- The string key of a location, as used in `self.data`. -/
def locName : Loc → String
  | .refrigerator_1 => "refrigerator_1"
  | .refrigerator_2 => "refrigerator_2"
  | .refrigerator_3 => "refrigerator_3"
  | .cupboard => "cupboard"

/-- Membership test `location in self.data`: the store's key set is fixed
at the four location names, so a string denotes a location iff it equals
one of them. -/
def parseLoc (loc : String) : Option Loc :=
  if loc = "refrigerator_1" then some .refrigerator_1
  else if loc = "refrigerator_2" then some .refrigerator_2
  else if loc = "refrigerator_3" then some .refrigerator_3
  else if loc = "cupboard" then some .cupboard
  else none

/-- Item lookup by location string: `self.data[location].get(name)`
(`none` also when the location string is unknown). -/
def lookupStore (s : Store) (loc name : String) : Option Item :=
  match parseLoc loc with
  | some l => alookup (s.getL l) name
  | none => none

/-- Result of `get_inventory`: either one location's item dict or the
whole store (the Python method returns either `self.data.get(location, dict())`
or `self.data`). -/
inductive GetResult where
  | single (m : LocMap)
  | whole (s : Store)
deriving DecidableEq, Repr

/-- InventoryManager.get_inventory (src/main.py:100-103).  Python's
`if location:` is falsy both for `None` and for the empty string, in which
case the whole store is returned. -/
def get_inventory (s : Store) (location : Option String) : GetResult :=
  match location with
  | none => .whole s
  | some loc =>
    if loc = "" then .whole s
    else
      match parseLoc loc with
      | some l => .single (s.getL l)
      | none => .single []

/-- InventoryManager.edit_item (src/main.py:82-91).  `newQ = none` /
`newC = none` model the Python `None` sentinels meaning "leave unchanged".
On unknown location or absent item it returns `false` without mutating;
otherwise it applies the supplied fields and reports the save outcome. -/
def edit_item (s : Store) (loc name : String) (newQ : Option Int)
    (newC : Option String) (saveOk : Bool) : Store × Bool :=
  match parseLoc loc with
  | none => (s, false)
  | some l =>
    match alookup (s.getL l) name with
    | none => (s, false)
    | some _ =>
      let m0 := s.getL l
      let m1 := match newQ with
        | some q => updateItem m0 name (fun it => ⟨q, it.category⟩)
        | none => m0
      let m2 := match newC with
        | some c => updateItem m1 name (fun it => ⟨it.quantity, some c⟩)
        | none => m1
      (s.setL l m2, saveOk)

/-- Result of `move_from_cupboard`: `(True, target_location)` or
`(False, reason)`. -/
inductive MoveResult where
  | ok (target : String)
  | err (msg : String)
deriving DecidableEq, Repr

/-- Target-location choice of `move_from_cupboard` (src/main.py:164-173):
the first refrigerator already stocking the item, else `refrigerator_1`. -/
def targetLoc (s : Store) (item : String) : Loc :=
  if (alookup s.refrigerator_1 item).isSome then .refrigerator_1
  else if (alookup s.refrigerator_2 item).isSome then .refrigerator_2
  else if (alookup s.refrigerator_3 item).isSome then .refrigerator_3
  else .refrigerator_1

/-- InventoryManager.move_from_cupboard (src/main.py:156-195).  Mirrors
the source line by line: validation, target choice, cupboard decrement
with deletion on exactly zero, then the target update, whose category for
a newly created record is read from the cupboard dict *after* the
decrement/deletion (`self.data['cupboard'].get(item_name, dict()).get('category')`). -/
def move_from_cupboard (s : Store) (item : String) (q : Int)
    (saveOk : Bool) : Store × MoveResult :=
  match alookup s.cupboard item with
  | none => (s, .err "Товар не найден в шкафу")
  | some it =>
    if it.quantity < q then (s, .err "Недостаточно товара в шкафу")
    else
      let target := targetLoc s item
      let cb1 := updateItem s.cupboard item (fun i => ⟨i.quantity - q, i.category⟩)
      let cb2 := if it.quantity - q = 0 then eraseItem cb1 item else cb1
      let s1 := s.setL .cupboard cb2
      let tm := s1.getL target
      let tm1 :=
        match alookup tm item with
        | some _ => updateItem tm item (fun i => ⟨i.quantity + q, i.category⟩)
        | none =>
          let category :=
            match alookup cb2 item with
            | some i => i.category
            | none => none
          tm ++ [(item, ⟨q, category⟩)]
      let s2 := s1.setL target tm1
      if saveOk then (s2, .ok (locName target))
      else (s2, .err "Ошибка сохранения данных")

/-- InventoryManager.add_to_cupboard (src/main.py:197-210): merge each
(name, quantity) pair into the cupboard dict (add to an existing entry,
else append a new entry with `category = None`), then persist once; the
whole batch reports the single save outcome. -/
def add_to_cupboard (s : Store) (goods : List (String × Int))
    (saveOk : Bool) : Store × Bool :=
  let cb := goods.foldl
    (fun m p =>
      match alookup m p.1 with
      | some _ => updateItem m p.1 (fun it => ⟨it.quantity + p.2, it.category⟩)
      | none => m ++ [(p.1, ⟨p.2, none⟩)])
    s.cupboard
  (s.setL .cupboard cb, saveOk)

/-- Total quantity a receiving batch carries for one item name (used to
characterize `add_to_cupboard` when a name occurs in several lines). -/
def sumQ (goods : List (String × Int)) (name : String) : Int :=
  ((goods.filter (fun p => p.1 == name)).map Prod.snd).sum

/-- Ceiling of `t/2` on integers.  In `check_stock_levels` it is applied
to the value of `float(total_in_fridges)`: once the total has been
converted to a double, multiplying by `0.5` and taking `math.ceil` are
both exact, so `ceilHalf (floatOfInt t)` is exactly
`math.ceil(float(t) * 0.5)`. -/
def ceilHalf (t : Int) : Int :=
  Int.fdiv (t + 1) 2

/-- Floor of the base-2 logarithm (fuel-indexed; each step halves the
argument, so fuel `n` always suffices for input `n`). -/
def log2F : Nat → Nat → Nat
  | 0, _ => 0
  | fuel + 1, n => if n < 2 then 0 else log2F fuel (n / 2) + 1

/-- Integer value of Python `float(t)` for an int `t`: IEEE-754 double
conversion, i.e. round to nearest with ties to even — exact below `2^53`
in magnitude, rounded to 53 significant bits above, and `none` for the
OverflowError Python raises when the rounded magnitude reaches `2^1024`.
A finite `float(t)` always has an integer value because its exponent is
non-negative, so the value is returned as an `Int`. -/
def floatOfInt (t : Int) : Option Int :=
  if t.natAbs < 2 ^ 53 then some t
  else
    let n := t.natAbs
    let e := log2F n n - 52
    let q := n / 2 ^ e
    let r := n % 2 ^ e
    let half := 2 ^ (e - 1)
    let q2 := if half < r then q + 1
      else if r < half then q
      else if q % 2 = 1 then q + 1 else q
    let v := q2 * 2 ^ e
    if v < 2 ^ 1024 then some (if t < 0 then -(v : Int) else (v : Int)) else none

/-- Distinct item names present in any refrigerator, as collected by the
`fridge_items` set of `check_stock_levels` (src/main.py:227-231). -/
def fridgeItems (s : Store) : List String :=
  (((s.getL .refrigerator_1).map Prod.fst)
    ++ ((s.getL .refrigerator_2).map Prod.fst)
    ++ ((s.getL .refrigerator_3).map Prod.fst)).dedup

/-- One iteration of the `check_stock_levels` loop (src/main.py:234-248):
skip the item when its cupboard quantity (default 0) is at or above the
threshold, otherwise record `(current, recommended)` with
`recommended = max(10, math.ceil(float(total_in_fridges) * 0.5))`;
`none` of the inner map is the OverflowError of the float conversion. -/
def stockEntry (s : Store) (threshold : Int) (item : String) :
    Option (String × Int × Int) :=
  if qtyVal (s.getL .cupboard) item < threshold then
    (floatOfInt (qtyVal (s.getL .refrigerator_1) item
      + qtyVal (s.getL .refrigerator_2) item
      + qtyVal (s.getL .refrigerator_3) item)).map
      (fun v => (item, qtyVal (s.getL .cupboard) item, max 10 (ceilHalf v)))
  else none

/-- Whether the `check_stock_levels` loop raises OverflowError at this
item: it is examined (cupboard quantity below threshold) and its fridge
total is too large to convert to a float. -/
def stockOverflow (s : Store) (threshold : Int) (item : String) : Bool :=
  if qtyVal (s.getL .cupboard) item < threshold then
    (floatOfInt (qtyVal (s.getL .refrigerator_1) item
      + qtyVal (s.getL .refrigerator_2) item
      + qtyVal (s.getL .refrigerator_3) item)).isNone
  else false

/-- InventoryManager.check_stock_levels (src/main.py:223-250).  The
source loop either raises an uncaught OverflowError at the first examined
item whose fridge total cannot be converted to a float (discarding the
partial dict), or returns the complete dict; observably it raises iff
some examined item overflows, modelled as `none`, and otherwise returns
one `(item, current, recommended)` entry per below-threshold item. -/
def check_stock_levels (s : Store) (threshold : Int) :
    Option (List (String × Int × Int)) :=
  if (fridgeItems s).any (stockOverflow s threshold) then none
  else some ((fridgeItems s).filterMap (stockEntry s threshold))

/-- One pass of the confirm loop of `confirm_counting` over a single
location's recorded items: `edit_item(location, item, new_quantity)` for
each, ignoring the returned flag as the source does. -/
def applyItems (st : Store) (loc : String) (items : List (String × Int)) : Store :=
  items.foldl (fun a p => (edit_item a loc p.1 (some p.2) none true).1) st

/-- confirm_counting (src/main.py:769-787): on confirmation (the handler
compares `update.message.text.lower()` with the yes-word, here modelled as
the boolean `yes`), apply every recorded (location, item, newQuantity)
via `edit_item`; otherwise leave the store untouched. -/
def confirm_counting (s : Store)
    (results : List (String × List (String × Int))) (yes : Bool) : Store :=
  if yes then results.foldl (fun a p => applyItems a p.1 p.2) s else s

/-- Recorded value of a (location, item) pair in a stocktake session's
results mapping. -/
def recLookup (results : List (String × List (String × Int)))
    (loc name : String) : Option Int :=
  match alookup results loc with
  | some items => alookup items name
  | none => none

/-!
Embedding of `InventoryManager.calculate_expression` (src/main.py:212-221):
normalize `x`/`х` to `*`, strip every character outside `\d * + - \s /`,
evaluate with Python's expression grammar, convert with `int(...)`, and
return `None` on any exception.  After stripping, the only tokens Python's
own tokenizer can see are integer literals, whitespace and the operators
`+ - * / ** //`, so we embed exactly that fragment: a tokenizer and a
recursive-descent parser following Python's precedence (`+`/`-` below
`*`/`/`/`//` below unary sign below right-associative `**`).

Modelling notes kept minimal and explicit: the character classes `\d` and
`\s` are taken as their ASCII parts; Python float division is idealized as
exact rational arithmetic with the final `int(...)` truncating toward
zero; `**` with a non-integer exponent (reachable only through nested
`**`) yields an irrational float in Python and is modelled as failure.
None of the theorems below depend on these corners.
-/

/-- Characters Python's `\s` matches (ASCII part). -/
def pythonWhitespace (c : Char) : Bool :=
  c == ' ' || c == '\t' || c == '\n' || c == '\r' || c == '\x0b' || c == '\x0c'

/-- The two `str.replace` calls: ASCII `x` and Cyrillic `х` become `*`. -/
def normalizeMul (s : String) : String :=
  String.mk (s.data.map (fun c => if c = 'x' ∨ c = 'х' then '*' else c))

/-- The `re.sub` call: keep only digits, `*`, `+`, `-`, `/` and whitespace. -/
def stripAllowed (s : String) : String :=
  String.mk (s.data.filter
    (fun c => c.isDigit || c == '*' || c == '+' || c == '-' || c == '/'
      || pythonWhitespace c))

/-- Tokens of the stripped expression language. -/
inductive Tok where
  | num (n : Nat) (valid : Bool)
  | plus
  | minus
  | mul
  | div
  | pow
  | floordiv
deriving DecidableEq, Repr

/-- Consume a maximal run of digits. -/
def takeDigits : List Char → List Char × List Char
  | [] => ([], [])
  | c :: cs =>
    if c.isDigit then
      let p := takeDigits cs
      (c :: p.1, p.2)
    else ([], c :: cs)

/-- Python's decimal-literal rule: a literal starting with `0` is legal
only if it is all zeros (`00` is `0`, `07` is a SyntaxError). -/
def numValid : List Char → Bool
  | '0' :: rest => rest.all (fun c => c == '0')
  | _ => true

def natOfDigits (ds : List Char) : Nat :=
  ds.foldl (fun a c => a * 10 + (c.toNat - '0'.toNat)) 0

/-- Tokenizer with maximal munch for `**` and `//` (fuel-indexed; each
step consumes at least one character, so `length + 1` fuel suffices). -/
def tokenizeF : Nat → List Char → Option (List Tok)
  | 0, _ => none
  | _, [] => some []
  | fuel + 1, c :: cs =>
    if pythonWhitespace c then tokenizeF fuel cs
    else if c.isDigit then
      let p := takeDigits (c :: cs)
      match tokenizeF fuel p.2 with
      | some ts => some (Tok.num (natOfDigits p.1) (numValid p.1) :: ts)
      | none => none
    else if c = '*' then
      match cs with
      | '*' :: cs2 =>
        match tokenizeF fuel cs2 with
        | some ts => some (Tok.pow :: ts)
        | none => none
      | _ =>
        match tokenizeF fuel cs with
        | some ts => some (Tok.mul :: ts)
        | none => none
    else if c = '/' then
      match cs with
      | '/' :: cs2 =>
        match tokenizeF fuel cs2 with
        | some ts => some (Tok.floordiv :: ts)
        | none => none
      | _ =>
        match tokenizeF fuel cs with
        | some ts => some (Tok.div :: ts)
        | none => none
    else if c = '+' then
      match tokenizeF fuel cs with
      | some ts => some (Tok.plus :: ts)
      | none => none
    else if c = '-' then
      match tokenizeF fuel cs with
      | some ts => some (Tok.minus :: ts)
      | none => none
    else none

/-- Exact rational value of an evaluation, as an unnormalized fraction
with positive denominator (idealizing Python's float results, see the
modelling notes above). -/
structure Frac where
  num : Int
  den : Int
deriving DecidableEq, Repr

def Frac.ofNat (n : Nat) : Frac := ⟨(n : Int), 1⟩

def fadd (a b : Frac) : Frac := ⟨a.num * b.den + b.num * a.den, a.den * b.den⟩

def fsub (a b : Frac) : Frac := ⟨a.num * b.den - b.num * a.den, a.den * b.den⟩

def fmul (a b : Frac) : Frac := ⟨a.num * b.num, a.den * b.den⟩

def fneg (a : Frac) : Frac := ⟨-a.num, a.den⟩

/-- Python `/`: exact division, ZeroDivisionError on 0; the denominator
sign is normalized to stay positive. -/
def fdiv (a b : Frac) : Option Frac :=
  if b.num = 0 then none
  else if 0 ≤ b.num then some ⟨a.num * b.den, a.den * b.num⟩
  else some ⟨-(a.num * b.den), a.den * (-b.num)⟩

/-- Python `//`: floor of the exact quotient; ZeroDivisionError on 0. -/
def ffloordiv (a b : Frac) : Option Frac :=
  if b.num = 0 then none
  else
    let n := a.num * b.den
    let d := a.den * b.num
    if 0 ≤ d then some ⟨Int.fdiv n d, 1⟩
    else some ⟨Int.fdiv (-n) (-d), 1⟩

/-- Python `**` on an exact value: integer exponents only (see the
modelling notes above); `0 ** negative` raises ZeroDivisionError. -/
def fpow (a e : Frac) : Option Frac :=
  if Int.emod e.num e.den = 0 then
    let z := Int.tdiv e.num e.den
    if 0 ≤ z then some ⟨a.num ^ z.toNat, a.den ^ z.toNat⟩
    else if a.num = 0 then none
    else
      let k := (-z).toNat
      if 0 ≤ a.num then some ⟨a.den ^ k, a.num ^ k⟩
      else some ⟨(-a.den) ^ k, (-a.num) ^ k⟩
  else none

/-- A numeric literal: only a `valid` number token parses. -/
def pPrimary : List Tok → Option (Frac × List Tok)
  | Tok.num n true :: ts => some (Frac.ofNat n, ts)
  | _ => none

mutual

/-- Sum level: `term (('+'|'-') term)*`. -/
def pExpr : Nat → List Tok → Option (Frac × List Tok)
  | 0, _ => none
  | fuel + 1, ts =>
    match pTerm fuel ts with
    | some (v, ts1) => pExprLoop fuel v ts1
    | none => none

def pExprLoop : Nat → Frac → List Tok → Option (Frac × List Tok)
  | 0, _, _ => none
  | fuel + 1, acc, Tok.plus :: ts =>
    match pTerm fuel ts with
    | some (v, ts1) => pExprLoop fuel (fadd acc v) ts1
    | none => none
  | fuel + 1, acc, Tok.minus :: ts =>
    match pTerm fuel ts with
    | some (v, ts1) => pExprLoop fuel (fsub acc v) ts1
    | none => none
  | _ + 1, acc, ts => some (acc, ts)

/-- Product level: `unary (('*'|'/'|'//') unary)*`. -/
def pTerm : Nat → List Tok → Option (Frac × List Tok)
  | 0, _ => none
  | fuel + 1, ts =>
    match pUnary fuel ts with
    | some (v, ts1) => pTermLoop fuel v ts1
    | none => none

def pTermLoop : Nat → Frac → List Tok → Option (Frac × List Tok)
  | 0, _, _ => none
  | fuel + 1, acc, Tok.mul :: ts =>
    match pUnary fuel ts with
    | some (v, ts1) => pTermLoop fuel (fmul acc v) ts1
    | none => none
  | fuel + 1, acc, Tok.div :: ts =>
    match pUnary fuel ts with
    | some (v, ts1) =>
      match fdiv acc v with
      | some r => pTermLoop fuel r ts1
      | none => none
    | none => none
  | fuel + 1, acc, Tok.floordiv :: ts =>
    match pUnary fuel ts with
    | some (v, ts1) =>
      match ffloordiv acc v with
      | some r => pTermLoop fuel r ts1
      | none => none
    | none => none
  | _ + 1, acc, ts => some (acc, ts)

/-- Unary level: `('+'|'-')* power`, binding looser than `**`. -/
def pUnary : Nat → List Tok → Option (Frac × List Tok)
  | 0, _ => none
  | fuel + 1, Tok.minus :: ts =>
    match pUnary fuel ts with
    | some (v, ts1) => some (fneg v, ts1)
    | none => none
  | fuel + 1, Tok.plus :: ts => pUnary fuel ts
  | fuel + 1, ts => pPow fuel ts

/-- Power level: `primary ['**' unary]`, right associative. -/
def pPow : Nat → List Tok → Option (Frac × List Tok)
  | 0, _ => none
  | fuel + 1, ts =>
    match pPrimary ts with
    | some (v, Tok.pow :: ts1) =>
      match pUnary fuel ts1 with
      | some (e, ts2) =>
        match fpow v e with
        | some r => some (r, ts2)
        | none => none
      | none => none
    | some (v, ts1) => some (v, ts1)
    | none => none

end

/-- Python `int(...)` on the final value: truncation toward zero. -/
def truncFrac (q : Frac) : Int :=
  Int.tdiv q.num q.den

/-- InventoryManager.calculate_expression (src/main.py:212-221): the full
normalize / strip / eval / int pipeline, `none` on any failure (syntax
error, empty input, division by zero, leftover tokens). -/
def calculate_expression (input : String) : Option Int :=
  let chars := (stripAllowed (normalizeMul input)).data
  match tokenizeF (chars.length + 1) chars with
  | none => none
  | some ts =>
    match pExpr (ts.length * 4 + 8) ts with
    | some (v, []) => some (truncFrac v)
    | _ => none

/-- The acceptance guard of `handle_counting_quantity`
(src/main.py:671-677): a stocktake answer is accepted only when
`calculate_expression` returned a value and that value is not negative
(`calculated is None or calculated < 0` re-prompts). -/
def counting_accept (input : String) : Option Int :=
  match calculate_expression input with
  | none => none
  | some n => if n < 0 then none else some n

/-! Lemmas about the association-list dictionary operations. -/

theorem updateItem_cons (k : String) (v : Item) (t : LocMap) (name : String)
    (f : Item → Item) :
    updateItem ((k, v) :: t) name f =
      (k, if k = name then f v else v) :: updateItem t name f := by
  by_cases hk : k = name <;> simp [updateItem, hk]

theorem eraseItem_cons (k : String) (v : Item) (t : LocMap) (name : String) :
    eraseItem ((k, v) :: t) name =
      if k = name then eraseItem t name else (k, v) :: eraseItem t name := by
  by_cases hk : k = name <;> simp [eraseItem, hk]

theorem alookup_update (m : LocMap) (name : String) (f : Item → Item) (n : String) :
    alookup (updateItem m name f) n =
      if n = name then (alookup m name).map f else alookup m n := by
  induction m with
  | nil => simp [updateItem, alookup]
  | cons p t ih =>
    obtain ⟨k, v⟩ := p
    rw [updateItem_cons]
    by_cases hn : k = n
    · subst hn
      by_cases hk : k = name
      · subst hk; simp [alookup]
      · simp [alookup, hk]
    · by_cases hnn : n = name
      · subst hnn
        simp [alookup, hn, ih]
      · simp [alookup, hn, hnn, ih]

theorem alookup_erase (m : LocMap) (name n : String) :
    alookup (eraseItem m name) n =
      if n = name then none else alookup m n := by
  induction m with
  | nil => simp [eraseItem, alookup]
  | cons p t ih =>
    obtain ⟨k, v⟩ := p
    rw [eraseItem_cons]
    by_cases hk : k = name
    · subst hk
      rw [if_pos rfl, ih]
      by_cases hn : n = k
      · simp [hn]
      · have hkn : ¬ k = n := fun h => hn h.symm
        simp [alookup, hn, hkn]
    · rw [if_neg hk]
      by_cases hn : k = n
      · subst hn
        simp [alookup, hk]
      · simp [alookup, hn, ih]

theorem alookup_append {α : Type} (a b : List (String × α)) (n : String) :
    alookup (a ++ b) n =
      match alookup a n with
      | some v => some v
      | none => alookup b n := by
  induction a with
  | nil => simp [alookup]
  | cons p t ih =>
    obtain ⟨k, v⟩ := p
    by_cases hk : k = n
    · simp [alookup, hk]
    · simp [alookup, hk, ih]

theorem alookup_isSome_iff {α : Type} (m : List (String × α)) (n : String) :
    (alookup m n).isSome ↔ n ∈ m.map Prod.fst := by
  induction m with
  | nil => simp [alookup]
  | cons p t ih =>
    obtain ⟨k, v⟩ := p
    by_cases hk : k = n
    · simp [alookup, hk]
    · simp [alookup, hk, ih, Ne.symm hk]

theorem alookup_eq_none_iff {α : Type} (m : List (String × α)) (n : String) :
    alookup m n = none ↔ n ∉ m.map Prod.fst := by
  rw [← alookup_isSome_iff]
  cases alookup m n <;> simp

theorem alookup_mem_nodup {α : Type} (m : List (String × α)) (k : String) (v : α)
    (hnd : (m.map Prod.fst).Nodup) (hm : (k, v) ∈ m) :
    alookup m k = some v := by
  induction m with
  | nil => simp at hm
  | cons p t ih =>
    obtain ⟨k0, v0⟩ := p
    simp only [List.map_cons, List.nodup_cons] at hnd
    rcases List.mem_cons.mp hm with h | h
    · obtain ⟨rfl, rfl⟩ := Prod.mk.injEq .. ▸ h
      simp [alookup]
    · have hk : k0 ≠ k := by
        intro h0
        subst h0
        exact hnd.1 (List.mem_map_of_mem Prod.fst h)
      simp [alookup, hk, ih hnd.2 h]

theorem getL_setL (s : Store) (l : Loc) (m : LocMap) (l' : Loc) :
    (s.setL l m).getL l' = if l' = l then m else s.getL l' := by
  cases l <;> cases l' <;> simp [Store.setL, Store.getL]

theorem parseLoc_locName (l : Loc) : parseLoc (locName l) = some l := by
  cases l <;> decide

theorem targetLoc_ne_cupboard (s : Store) (item : String) :
    targetLoc s item ≠ Loc.cupboard := by
  unfold targetLoc
  split_ifs <;> simp

/-- Closed-form behaviour of a validated transfer: the cupboard entry
after, the target entry after, and the reported result. -/
theorem move_spec (s : Store) (item : String) (q : Int) (saveOk : Bool) (it : Item)
    (hcb : alookup s.cupboard item = some it) (hnl : ¬ it.quantity < q) :
    alookup (move_from_cupboard s item q saveOk).1.cupboard item
        = (if it.quantity - q = 0 then none
           else some ⟨it.quantity - q, it.category⟩)
    ∧ alookup ((move_from_cupboard s item q saveOk).1.getL (targetLoc s item)) item
        = (match alookup (s.getL (targetLoc s item)) item with
           | some j => some ⟨j.quantity + q, j.category⟩
           | none => some ⟨q, if it.quantity - q = 0 then none else it.category⟩)
    ∧ (move_from_cupboard s item q saveOk).2
        = (if saveOk then MoveResult.ok (locName (targetLoc s item))
           else MoveResult.err "Ошибка сохранения данных") := by
  have ht : targetLoc s item ≠ Loc.cupboard := targetLoc_ne_cupboard s item
  rcases htl : targetLoc s item with _ | _ | _ | _
  case cupboard => exact absurd htl ht
  case refrigerator_1 =>
    simp only [move_from_cupboard, hcb, if_neg hnl, htl, Store.setL, Store.getL]
    by_cases h0 : it.quantity - q = 0 <;>
      cases saveOk <;>
        rcases halt : alookup s.refrigerator_1 item with _ | j <;>
          simp [h0, halt, alookup_update, alookup_erase, alookup_append, alookup, hcb]
  case refrigerator_2 =>
    simp only [move_from_cupboard, hcb, if_neg hnl, htl, Store.setL, Store.getL]
    by_cases h0 : it.quantity - q = 0 <;>
      cases saveOk <;>
        rcases halt : alookup s.refrigerator_2 item with _ | j <;>
          simp [h0, halt, alookup_update, alookup_erase, alookup_append, alookup, hcb]
  case refrigerator_3 =>
    simp only [move_from_cupboard, hcb, if_neg hnl, htl, Store.setL, Store.getL]
    by_cases h0 : it.quantity - q = 0 <;>
      cases saveOk <;>
        rcases halt : alookup s.refrigerator_3 item with _ | j <;>
          simp [h0, halt, alookup_update, alookup_erase, alookup_append, alookup, hcb]

/-- C1: for an item present in the cupboard and any integer `q` not
exceeding its cupboard quantity, a successful `transfer(item, q)`
(`move_from_cupboard`) conserves the summed quantity of the item over
cupboard plus target refrigeration location, decreases the cupboard
quantity by exactly `q`, and removes the cupboard record iff the quantity
reaches exactly 0. -/
theorem transfer_conserves_quantity (s : Store) (item : String) (q : Int) (it : Item)
    (hcb : alookup s.cupboard item = some it) (hq : q ≤ it.quantity) :
    qtyVal (move_from_cupboard s item q true).1.cupboard item
        + qtyVal ((move_from_cupboard s item q true).1.getL (targetLoc s item)) item
      = qtyVal s.cupboard item + qtyVal (s.getL (targetLoc s item)) item
    ∧ qtyVal (move_from_cupboard s item q true).1.cupboard item
        = qtyVal s.cupboard item - q
    ∧ (alookup (move_from_cupboard s item q true).1.cupboard item = none
        ↔ qtyVal s.cupboard item - q = 0)
    ∧ (move_from_cupboard s item q true).2
        = MoveResult.ok (locName (targetLoc s item)) := by
  have hnl : ¬ it.quantity < q := not_lt.mpr hq
  obtain ⟨h1, h2, h3⟩ := move_spec s item q true it hcb hnl
  have hv : qtyVal s.cupboard item = it.quantity := by simp [qtyVal, hcb]
  have hcup : qtyVal (move_from_cupboard s item q true).1.cupboard item
      = it.quantity - q := by
    rw [qtyVal, h1]
    by_cases h0 : it.quantity - q = 0
    · simp [h0]
    · simp [h0]
  have htgt : qtyVal ((move_from_cupboard s item q true).1.getL (targetLoc s item)) item
      = qtyVal (s.getL (targetLoc s item)) item + q := by
    rcases halt : alookup (s.getL (targetLoc s item)) item with _ | j <;>
      simp [qtyVal, h2, halt]
  refine ⟨?_, ?_, ?_, ?_⟩
  · rw [hcup, htgt, hv]; ring
  · rw [hcup, hv]
  · rw [h1, hv]
    by_cases h0 : it.quantity - q = 0 <;> simp [h0]
  · simpa using h3

theorem transfer_conserves_quantity_witness :
    qtyVal (move_from_cupboard ⟨[], [], [], [("a", ⟨5, some "c"⟩)]⟩ "a" 2 true).1.cupboard "a"
        + qtyVal ((move_from_cupboard ⟨[], [], [], [("a", ⟨5, some "c"⟩)]⟩ "a" 2 true).1.getL
            (targetLoc ⟨[], [], [], [("a", ⟨5, some "c"⟩)]⟩ "a")) "a"
      = qtyVal (Store.cupboard ⟨[], [], [], [("a", ⟨5, some "c"⟩)]⟩) "a"
        + qtyVal (Store.getL ⟨[], [], [], [("a", ⟨5, some "c"⟩)]⟩
            (targetLoc ⟨[], [], [], [("a", ⟨5, some "c"⟩)]⟩ "a")) "a" :=
  (transfer_conserves_quantity ⟨[], [], [], [("a", ⟨5, some "c"⟩)]⟩ "a" 2 ⟨5, some "c"⟩
    (by decide) (by decide)).1

/-- C10: `move_from_cupboard` has no lower bound on the requested
quantity: any integer `q` at most the cupboard quantity (including 0 and
negative values) succeeds, subtracts `q` from the cupboard, adds `q` at
the target, and creates a quantity-`q` record when the target lacks one. -/
theorem transfer_no_lower_bound (s : Store) (item : String) (q : Int) (it : Item)
    (hcb : alookup s.cupboard item = some it) (hq : q ≤ it.quantity) :
    (move_from_cupboard s item q true).2
        = MoveResult.ok (locName (targetLoc s item))
    ∧ qtyVal (move_from_cupboard s item q true).1.cupboard item
        = qtyVal s.cupboard item - q
    ∧ qtyVal ((move_from_cupboard s item q true).1.getL (targetLoc s item)) item
        = qtyVal (s.getL (targetLoc s item)) item + q
    ∧ (alookup (s.getL (targetLoc s item)) item = none →
        ∃ c, alookup ((move_from_cupboard s item q true).1.getL (targetLoc s item)) item
          = some ⟨q, c⟩) := by
  have hnl : ¬ it.quantity < q := not_lt.mpr hq
  obtain ⟨h1, h2, h3⟩ := move_spec s item q true it hcb hnl
  have hv : qtyVal s.cupboard item = it.quantity := by simp [qtyVal, hcb]
  refine ⟨by simpa using h3, ?_, ?_, ?_⟩
  · rw [qtyVal, h1, hv]
    by_cases h0 : it.quantity - q = 0
    · simp [h0]
    · simp [h0]
  · rcases halt : alookup (s.getL (targetLoc s item)) item with _ | j <;>
      simp [qtyVal, h2, halt]
  · intro habs
    rw [h2, habs]
    exact ⟨_, rfl⟩

theorem transfer_no_lower_bound_witness :
    (move_from_cupboard ⟨[], [], [], [("a", ⟨5, some "c"⟩)]⟩ "a" (-3) true).2
        = MoveResult.ok (locName (targetLoc ⟨[], [], [], [("a", ⟨5, some "c"⟩)]⟩ "a"))
    ∧ qtyVal (move_from_cupboard ⟨[], [], [], [("a", ⟨5, some "c"⟩)]⟩ "a" (-3) true).1.cupboard "a"
        = qtyVal (Store.cupboard ⟨[], [], [], [("a", ⟨5, some "c"⟩)]⟩) "a" - (-3)
    ∧ qtyVal ((move_from_cupboard ⟨[], [], [], [("a", ⟨5, some "c"⟩)]⟩ "a" (-3) true).1.getL
          (targetLoc ⟨[], [], [], [("a", ⟨5, some "c"⟩)]⟩ "a")) "a"
        = qtyVal (Store.getL ⟨[], [], [], [("a", ⟨5, some "c"⟩)]⟩
            (targetLoc ⟨[], [], [], [("a", ⟨5, some "c"⟩)]⟩ "a")) "a" + (-3)
    ∧ (alookup (Store.getL ⟨[], [], [], [("a", ⟨5, some "c"⟩)]⟩
          (targetLoc ⟨[], [], [], [("a", ⟨5, some "c"⟩)]⟩ "a")) "a" = none →
        ∃ c, alookup ((move_from_cupboard ⟨[], [], [], [("a", ⟨5, some "c"⟩)]⟩ "a" (-3) true).1.getL
            (targetLoc ⟨[], [], [], [("a", ⟨5, some "c"⟩)]⟩ "a")) "a"
          = some ⟨-3, c⟩) :=
  transfer_no_lower_bound ⟨[], [], [], [("a", ⟨5, some "c"⟩)]⟩ "a" (-3) ⟨5, some "c"⟩
    (by decide) (by decide)

/-- C3 counterexample: a transfer that depletes the cupboard record to
exactly zero does NOT copy the pre-decrement category to the newly
created target record: the cupboard holds item `a` with quantity 2 and
category `c`, `transfer(a, 2)` creates the target record with category
`None`, because the source reads the category from the cupboard dict
after the record was deleted. -/
theorem transfer_category_lost_cex :
    (alookup (Store.cupboard ⟨[], [], [], [("a", ⟨2, some "c"⟩)]⟩) "a").map Item.category
        = some (some "c")
    ∧ alookup ((move_from_cupboard ⟨[], [], [], [("a", ⟨2, some "c"⟩)]⟩ "a" 2 true).1.getL
          (targetLoc ⟨[], [], [], [("a", ⟨2, some "c"⟩)]⟩ "a")) "a"
        = some ⟨2, none⟩
    ∧ (some (⟨2, none⟩ : Item) : Option Item) ≠ some ⟨2, some "c"⟩ := by
  decide

/-- C3 (amended): when the target location does not stock the item, the
new target record carries quantity `q` and the cupboard record's category
*unless* the transfer depletes the cupboard record to exactly zero, in
which case the category is `None` (the category is lost with the deleted
cupboard record). -/
theorem transfer_new_record_category (s : Store) (item : String) (q : Int) (it : Item)
    (hcb : alookup s.cupboard item = some it) (hq : q ≤ it.quantity)
    (habs : alookup (s.getL (targetLoc s item)) item = none) :
    alookup ((move_from_cupboard s item q true).1.getL (targetLoc s item)) item
      = some ⟨q, if it.quantity - q = 0 then none else it.category⟩ := by
  have hnl : ¬ it.quantity < q := not_lt.mpr hq
  obtain ⟨h1, h2, h3⟩ := move_spec s item q true it hcb hnl
  rw [h2, habs]

theorem transfer_new_record_category_witness :
    alookup ((move_from_cupboard ⟨[], [], [], [("a", ⟨2, some "c"⟩)]⟩ "a" 2 true).1.getL
        (targetLoc ⟨[], [], [], [("a", ⟨2, some "c"⟩)]⟩ "a")) "a"
      = some ⟨2, if (2 : Int) - 2 = 0 then none else some "c"⟩ :=
  transfer_new_record_category ⟨[], [], [], [("a", ⟨2, some "c"⟩)]⟩ "a" 2 ⟨2, some "c"⟩
    (by decide) (by decide) (by decide)

/-- C7: `move_from_cupboard` fails with the distinct reason strings of
the source, `Товар не найден в шкафу` when the item is absent from the
cupboard and `Недостаточно товара в шкафу` when the cupboard quantity is
below the requested amount, and in both cases returns the store
unchanged. -/
theorem transfer_failure_reasons (s : Store) (item : String) (q : Int) (saveOk : Bool) :
    (alookup s.cupboard item = none →
      move_from_cupboard s item q saveOk = (s, .err "Товар не найден в шкафу"))
    ∧ (∀ it : Item, alookup s.cupboard item = some it → it.quantity < q →
      move_from_cupboard s item q saveOk = (s, .err "Недостаточно товара в шкафу"))
    ∧ ("Товар не найден в шкафу" : String) ≠ "Недостаточно товара в шкафу" := by
  refine ⟨?_, ?_, by decide⟩
  · intro h
    simp [move_from_cupboard, h]
  · intro it h hlt
    simp [move_from_cupboard, h, hlt]

theorem transfer_failure_reasons_witness :
    move_from_cupboard ⟨[], [], [], []⟩ "a" 1 true
        = (⟨[], [], [], []⟩, .err "Товар не найден в шкафу")
    ∧ move_from_cupboard ⟨[], [], [], [("a", ⟨1, none⟩)]⟩ "a" 5 true
        = (⟨[], [], [], [("a", ⟨1, none⟩)]⟩, .err "Недостаточно товара в шкафу") :=
  ⟨(transfer_failure_reasons ⟨[], [], [], []⟩ "a" 1 true).1 (by decide),
    (transfer_failure_reasons ⟨[], [], [], [("a", ⟨1, none⟩)]⟩ "a" 5 true).2.1
      ⟨1, none⟩ (by decide) (by decide)⟩

theorem parseLoc_eq_some_iff (a : String) (l : Loc) :
    parseLoc a = some l ↔ a = locName l := by
  constructor
  · intro h
    unfold parseLoc at h
    split_ifs at h with h1 h2 h3 h4 <;> simp_all [locName] <;> (subst h; rfl)
  · rintro rfl
    exact parseLoc_locName l

/-- C9 counterexample: the empty string is not one of the four fixed
location keys, yet `get_inventory("")` returns the whole store (Python's
`if location:` is falsy for the empty string), not an empty mapping. -/
theorem get_inventory_empty_string_cex :
    get_inventory ⟨[("b", ⟨1, none⟩)], [], [], []⟩ (some "")
        = .whole ⟨[("b", ⟨1, none⟩)], [], [], []⟩
    ∧ ("" : String) ≠ "refrigerator_1" ∧ ("" : String) ≠ "refrigerator_2"
    ∧ ("" : String) ≠ "refrigerator_3" ∧ ("" : String) ≠ "cupboard"
    ∧ GetResult.whole ⟨[("b", ⟨1, none⟩)], [], [], []⟩ ≠ .single [] := by
  decide

/-- C9 (amended): for every NONEMPTY location argument that is not one of
the four fixed location keys, `get_inventory` returns an empty mapping
(and, being a pure read, never mutates the store); the empty-string
argument instead returns the full store. -/
theorem get_inventory_unknown_location (s : Store) (loc : String)
    (hne : loc ≠ "")
    (h1 : loc ≠ "refrigerator_1") (h2 : loc ≠ "refrigerator_2")
    (h3 : loc ≠ "refrigerator_3") (h4 : loc ≠ "cupboard") :
    get_inventory s (some loc) = .single [] := by
  simp [get_inventory, hne, parseLoc, h1, h2, h3, h4]

theorem get_inventory_unknown_location_witness :
    get_inventory ⟨[("b", ⟨1, none⟩)], [], [], []⟩ (some "pantry") = .single [] :=
  get_inventory_unknown_location ⟨[("b", ⟨1, none⟩)], [], [], []⟩ "pantry"
    (by decide) (by decide) (by decide) (by decide) (by decide)

/-- C4 counterexample: the Quantity Expression Evaluator itself returns
the negative value -5 on the input string `-5`; the claim that no
returned value is negative is false for the evaluator (negatives are
rejected only by its caller). -/
theorem evaluator_returns_negative_cex :
    calculate_expression "-5" = some (-5) ∧ ¬ (0 ≤ (-5 : Int)) := by
  decide

/-- C4 (amended): for every input string the evaluator returns either an
integer (possibly negative) or the failure signal; any parse or
evaluation error yields the failure signal, and the stocktake caller
(`handle_counting_quantity`) rejects both the failure signal and negative
values, so every quantity it accepts is the evaluator's value and is
non-negative. -/
theorem evaluator_caller_accepts_nonneg (input : String) (n : Int)
    (h : counting_accept input = some n) :
    calculate_expression input = some n ∧ 0 ≤ n := by
  rcases hc : calculate_expression input with _ | m <;>
    simp only [counting_accept, hc] at h
  · exact absurd h (by simp)
  · by_cases hm : m < 0
    · simp [hm] at h
    · simp only [if_neg hm, Option.some.injEq] at h
      subst h
      exact ⟨rfl, not_lt.mp hm⟩

theorem evaluator_caller_accepts_nonneg_witness :
    calculate_expression "5" = some 5 ∧ 0 ≤ (5 : Int) :=
  evaluator_caller_accepts_nonneg "5" 5 (by decide)

theorem parseLoc_inj {a b : String} {l : Loc} (ha : parseLoc a = some l)
    (hb : parseLoc b = some l) : a = b := by
  rw [parseLoc_eq_some_iff] at ha hb
  rw [ha, hb]

/-- Effect of one quantity-only `edit_item` write on every lookup: the
addressed entry (when it exists) gets the new quantity with its category
kept; every other entry, absent entries and unknown locations are
untouched. -/
theorem lookupStore_edit (s : Store) (loc name : String) (q : Int) (l n : String) :
    lookupStore (edit_item s loc name (some q) none true).1 l n =
      if l = loc ∧ n = name then
        (lookupStore s l n).map (fun it => ⟨q, it.category⟩)
      else lookupStore s l n := by
  rcases hp : parseLoc loc with _ | L
  · simp only [edit_item, hp]
    by_cases hl : l = loc ∧ n = name
    · obtain ⟨rfl, rfl⟩ := hl
      simp [lookupStore, hp]
    · rw [if_neg hl]
  · rcases hname : alookup (s.getL L) name with _ | it0
    · simp only [edit_item, hp, hname]
      by_cases hl : l = loc ∧ n = name
      · obtain ⟨rfl, rfl⟩ := hl
        simp [lookupStore, hp, hname]
      · rw [if_neg hl]
    · simp only [edit_item, hp, hname]
      rcases hpl : parseLoc l with _ | L'
      · have hne : ¬ (l = loc ∧ n = name) := by
          rintro ⟨rfl, rfl⟩
          rw [hp] at hpl
          exact absurd hpl (by simp)
        simp [lookupStore, hpl, hne]
      · by_cases hLL : L' = L
        · subst hLL
          have hleq : l = loc := parseLoc_inj hpl hp
          subst hleq
          by_cases hn : n = name
          · subst hn
            simp [lookupStore, hpl, getL_setL, alookup_update]
          · simp [lookupStore, hpl, getL_setL, alookup_update, hn]
        · have hlne : ¬ l = loc := by
            intro h0
            subst h0
            rw [hp] at hpl
            injection hpl with h1
            exact hLL h1.symm
          simp [lookupStore, hpl, getL_setL, hLL, hlne]

/-- Effect of the inner confirm loop over one location's recorded items
on every lookup, given distinct recorded item names. -/
theorem lookupStore_applyItems (loc : String) (items : List (String × Int))
    (hnd : (items.map Prod.fst).Nodup) (st : Store) (l n : String) :
    lookupStore (applyItems st loc items) l n =
      if l = loc then
        match alookup items n with
        | some q => (lookupStore st l n).map (fun it => ⟨q, it.category⟩)
        | none => lookupStore st l n
      else lookupStore st l n := by
  induction items generalizing st with
  | nil =>
    by_cases hl : l = loc <;> simp [applyItems, alookup, hl]
  | cons p rest ih =>
    obtain ⟨name, q⟩ := p
    simp only [List.map_cons, List.nodup_cons] at hnd
    have hstep : applyItems st loc ((name, q) :: rest)
        = applyItems (edit_item st loc name (some q) none true).1 loc rest := by
      simp [applyItems]
    rw [hstep, ih hnd.2, lookupStore_edit]
    by_cases hl : l = loc
    · subst hl
      by_cases hn : n = name
      · subst hn
        have hrest : alookup rest n = none := (alookup_eq_none_iff _ _).mpr hnd.1
        simp [alookup, hrest]
      · have hcons : alookup ((name, q) :: rest) n = alookup rest n := by
          have hns : ¬ name = n := fun h => hn h.symm
          simp [alookup, hns]
        rw [hcons]
        rcases alookup rest n with _ | q2 <;> simp [hn]
    · simp [hl]

/-- Effect of the whole confirm loop on every lookup, given distinct
location keys and distinct item names per location in the results. -/
theorem lookupStore_confirm (results : List (String × List (String × Int)))
    (hnd1 : (results.map Prod.fst).Nodup)
    (hnd2 : ∀ p ∈ results, (p.2.map Prod.fst).Nodup)
    (s : Store) (l n : String) :
    lookupStore (confirm_counting s results true) l n =
      match recLookup results l n with
      | some q => (lookupStore s l n).map (fun it => ⟨q, it.category⟩)
      | none => lookupStore s l n := by
  induction results generalizing s with
  | nil => simp [confirm_counting, recLookup, alookup]
  | cons p rest ih =>
    obtain ⟨loc, items⟩ := p
    simp only [List.map_cons, List.nodup_cons] at hnd1
    have hstep : confirm_counting s ((loc, items) :: rest) true
        = confirm_counting (applyItems s loc items) rest true := by
      simp [confirm_counting]
    have hitems : (items.map Prod.fst).Nodup := hnd2 (loc, items) (by simp)
    have hnd2' : ∀ p ∈ rest, (p.2.map Prod.fst).Nodup := by
      intro p hp
      exact hnd2 p (List.mem_cons_of_mem _ hp)
    rw [hstep, ih hnd1.2 hnd2', lookupStore_applyItems loc items hitems]
    by_cases hl : l = loc
    · subst hl
      have hrest : alookup rest l = none := (alookup_eq_none_iff _ _).mpr hnd1.1
      have hrl : recLookup rest l n = none := by simp [recLookup, hrest]
      have hcl : recLookup ((l, items) :: rest) l n = alookup items n := by
        simp [recLookup, alookup]
      rw [hrl, hcl]
      rcases alookup items n with _ | q <;> simp
    · have hcl : recLookup ((loc, items) :: rest) l n = recLookup rest l n := by
        have hls : ¬ loc = l := fun h => hl h.symm
        simp [recLookup, alookup, hls]
      rw [hcl, if_neg hl]

/-- C2 counterexample: the store invariant "no zero-quantity entry
survives an operation" is violated by the stocktake-confirm write path:
confirming a recount of 0 for item `a` in refrigerator 1 stores the
entry with quantity 0 via `edit_item` instead of removing it. -/
theorem stocktake_zero_entry_cex :
    lookupStore
        (confirm_counting ⟨[("a", ⟨5, none⟩)], [], [], []⟩
          [("refrigerator_1", [("a", 0)])] true)
        "refrigerator_1" "a"
      = some ⟨0, none⟩ := by
  decide

/-- C2 (amended): the remove-on-zero behaviour holds only for the
transfer operation's cupboard record; the stocktake-confirm write path
stores each recorded quantity verbatim through `edit_item`, so a recorded
quantity of zero (or any non-positive value) remains in the location's
mapping as an entry with exactly that quantity. -/
theorem stocktake_write_keeps_zero_entry (s : Store) (loc name : String)
    (n : Int) (it : Item) (h : lookupStore s loc name = some it) :
    lookupStore (confirm_counting s [(loc, [(name, n)])] true) loc name
      = some ⟨n, it.category⟩ := by
  have := lookupStore_confirm [(loc, [(name, n)])] (by simp) (by simp) s loc name
  rw [this]
  simp [recLookup, alookup, h]

theorem stocktake_write_keeps_zero_entry_witness :
    lookupStore
        (confirm_counting ⟨[("a", ⟨5, some "c"⟩)], [], [], []⟩
          [("refrigerator_1", [("a", 0)])] true)
        "refrigerator_1" "a"
      = some ⟨0, some "c"⟩ :=
  stocktake_write_keeps_zero_entry ⟨[("a", ⟨5, some "c"⟩)], [], [], []⟩
    "refrigerator_1" "a" 0 ⟨5, some "c"⟩ (by decide)

/-- C6: on confirmation every recorded (location, item, newQuantity)
triple of a completed stocktake session is applied as a quantity
overwrite through the store's edit operation, keeping the written item's
category and leaving every unrecorded (location, item) pair unchanged;
on decline no store mutation occurs at all.  The hypotheses state that
the session's results mapping has dict-like unique keys and records only
items present in the store, as sessions built by the source do. -/
theorem stocktake_confirm_applies_decline_noop
    (s : Store) (results : List (String × List (String × Int)))
    (hnd1 : (results.map Prod.fst).Nodup)
    (hnd2 : ∀ p ∈ results, (p.2.map Prod.fst).Nodup)
    (hex : ∀ p ∈ results, ∀ r ∈ p.2, (lookupStore s p.1 r.1).isSome) :
    (∀ p ∈ results, ∀ r ∈ p.2, ∃ old : Item,
        lookupStore s p.1 r.1 = some old
          ∧ lookupStore (confirm_counting s results true) p.1 r.1
            = some ⟨r.2, old.category⟩)
    ∧ (∀ l n : String, recLookup results l n = none →
        lookupStore (confirm_counting s results true) l n = lookupStore s l n)
    ∧ confirm_counting s results false = s := by
  refine ⟨?_, ?_, by simp [confirm_counting]⟩
  · intro p hp r hr
    rcases hold : lookupStore s p.1 r.1 with _ | old
    · exact absurd (hold ▸ hex p hp r hr) (by simp)
    · refine ⟨old, rfl, ?_⟩
      rw [lookupStore_confirm results hnd1 hnd2 s p.1 r.1]
      have hrl : recLookup results p.1 r.1 = some r.2 := by
        unfold recLookup
        rw [alookup_mem_nodup results p.1 p.2 hnd1 (by simpa using hp)]
        exact alookup_mem_nodup p.2 r.1 r.2 (hnd2 p hp) (by simpa using hr)
      rw [hrl, hold]
      rfl
  · intro l n hnone
    rw [lookupStore_confirm results hnd1 hnd2 s l n, hnone]

theorem stocktake_confirm_applies_decline_noop_witness :
    lookupStore
        (confirm_counting ⟨[("a", ⟨5, some "c"⟩)], [], [], [("b", ⟨4, none⟩)]⟩
          [("refrigerator_1", [("a", 8)])] true)
        "refrigerator_1" "a"
      = some ⟨8, some "c"⟩
    ∧ lookupStore
        (confirm_counting ⟨[("a", ⟨5, some "c"⟩)], [], [], [("b", ⟨4, none⟩)]⟩
          [("refrigerator_1", [("a", 8)])] true)
        "cupboard" "b"
      = some ⟨4, none⟩
    ∧ confirm_counting ⟨[("a", ⟨5, some "c"⟩)], [], [], [("b", ⟨4, none⟩)]⟩
        [("refrigerator_1", [("a", 8)])] false
      = ⟨[("a", ⟨5, some "c"⟩)], [], [], [("b", ⟨4, none⟩)]⟩ := by
  obtain ⟨h1, h2, h3⟩ := stocktake_confirm_applies_decline_noop
    ⟨[("a", ⟨5, some "c"⟩)], [], [], [("b", ⟨4, none⟩)]⟩
    [("refrigerator_1", [("a", 8)])]
    (by decide) (by decide) (by decide)
  refine ⟨?_, ?_, h3⟩
  · obtain ⟨old, hold, happ⟩ :=
      h1 ("refrigerator_1", [("a", 8)]) (by simp) ("a", 8) (by simp)
    have : old = (⟨5, some "c"⟩ : Item) := by
      have := hold.symm.trans (by decide :
        lookupStore (⟨[("a", ⟨5, some "c"⟩)], [], [], [("b", ⟨4, none⟩)]⟩ : Store)
          "refrigerator_1" "a" = some ⟨5, some "c"⟩)
      injection this
    rw [this] at happ
    exact happ
  · exact h2 "cupboard" "b" (by decide)

theorem sumQ_cons (n0 : String) (q0 : Int) (rest : List (String × Int)) (name : String) :
    sumQ ((n0, q0) :: rest) name
      = if n0 = name then q0 + sumQ rest name else sumQ rest name := by
  by_cases h : n0 = name <;> simp [sumQ, h]

/-- Pointwise characterization of the receiving fold of `add_to_cupboard`:
an existing entry gains the batch total for its name with its category
kept; a name not yet stocked but present in the batch is created with the
batch total and no category; all other names stay absent. -/
theorem alookup_receive_fold (goods : List (String × Int)) (m : LocMap) (name : String) :
    alookup (goods.foldl
      (fun m p =>
        match alookup m p.1 with
        | some _ => updateItem m p.1 (fun it => ⟨it.quantity + p.2, it.category⟩)
        | none => m ++ [(p.1, ⟨p.2, none⟩)]) m) name =
      match alookup m name with
      | some it => some ⟨it.quantity + sumQ goods name, it.category⟩
      | none =>
        if name ∈ goods.map Prod.fst then some ⟨sumQ goods name, none⟩ else none := by
  induction goods generalizing m with
  | nil =>
    rcases h : alookup m name with _ | it <;> simp [sumQ, h]
  | cons p rest ih =>
    obtain ⟨n0, q0⟩ := p
    rw [List.foldl_cons, ih, sumQ_cons]
    rcases h0 : alookup m n0 with _ | it0
    · by_cases hn : name = n0
      · subst hn
        rw [if_pos rfl]
        have happ : alookup (m ++ [(name, (⟨q0, none⟩ : Item))]) name
            = some ⟨q0, none⟩ := by
          rw [alookup_append, h0]
          simp [alookup]
        rw [happ, h0]
        simp [List.mem_map]
      · have hn0 : ¬ n0 = name := fun h => hn h.symm
        have happ : alookup (m ++ [(n0, (⟨q0, none⟩ : Item))]) name
            = alookup m name := by
          rw [alookup_append]
          rcases hm : alookup m name with _ | it <;> simp [alookup, hn0]
        rw [happ, if_neg hn0]
        rcases hm : alookup m name with _ | it
        · have hiff : (name ∈ List.map Prod.fst rest)
              ↔ (name ∈ n0 :: List.map Prod.fst rest) := by
            rw [List.mem_cons]
            exact (or_iff_right hn).symm
          exact if_congr hiff rfl rfl
        · rfl
    · by_cases hn : name = n0
      · subst hn
        rw [if_pos rfl, alookup_update, if_pos rfl, h0]
        simp [add_assoc]
      · have hn0 : ¬ n0 = name := fun h => hn h.symm
        rw [alookup_update, if_neg hn, if_neg hn0]
        rcases hm : alookup m name with _ | it
        · have hiff : (name ∈ List.map Prod.fst rest)
              ↔ (name ∈ n0 :: List.map Prod.fst rest) := by
            rw [List.mem_cons]
            exact (or_iff_right hn).symm
          exact if_congr hiff rfl rfl
        · rfl

/-- C8: `add_to_cupboard` (the Receiving Engine) merges every (name,
quantity) pair into the cupboard — adding to an existing item's quantity,
else creating the item with no category — touches no refrigeration
location, and reports exactly the single end-of-batch persistence
outcome, which uniformly decides success of the whole batch. -/
theorem receive_batch_spec (s : Store) (goods : List (String × Int)) (saveOk : Bool) :
    (add_to_cupboard s goods saveOk).2 = saveOk
    ∧ (add_to_cupboard s goods saveOk).1.refrigerator_1 = s.refrigerator_1
    ∧ (add_to_cupboard s goods saveOk).1.refrigerator_2 = s.refrigerator_2
    ∧ (add_to_cupboard s goods saveOk).1.refrigerator_3 = s.refrigerator_3
    ∧ ∀ name : String,
        alookup (add_to_cupboard s goods saveOk).1.cupboard name =
          match alookup s.cupboard name with
          | some it => some ⟨it.quantity + sumQ goods name, it.category⟩
          | none =>
            if name ∈ goods.map Prod.fst then some ⟨sumQ goods name, none⟩
            else none := by
  refine ⟨rfl, rfl, rfl, rfl, ?_⟩
  intro name
  exact alookup_receive_fold goods s.cupboard name

/-- Association lookup over a key-preserving `filterMap` image of a
duplicate-free key list evaluates the generator at the key. -/
theorem alookup_filterMap {β : Type} (l : List String)
    (f : String → Option (String × β))
    (hf : ∀ x r, f x = some r → r.1 = x) (hnd : l.Nodup)
    (k : String) (hk : k ∈ l) :
    alookup (l.filterMap f) k = (f k).map Prod.snd := by
  induction l with
  | nil => simp at hk
  | cons x rest ih =>
    simp only [List.nodup_cons] at hnd
    have hnone : ∀ k0, k0 ∉ rest → alookup (rest.filterMap f) k0 = none := by
      intro k0 hk0
      rw [alookup_eq_none_iff]
      intro hmem
      obtain ⟨r, hr, hrk⟩ := List.mem_map.mp hmem
      obtain ⟨x0, hx0, hfx0⟩ := List.mem_filterMap.mp hr
      exact hk0 (by rw [← hrk, hf x0 r hfx0]; exact hx0)
    rcases List.mem_cons.mp hk with rfl | hkr
    · rcases hfx : f k with _ | r
      · rw [List.filterMap_cons_none hfx, hnone k hnd.1]
        rfl
      · rw [List.filterMap_cons_some hfx]
        have hkey : r.1 = k := hf k r hfx
        obtain ⟨r1, r2⟩ := r
        simp only at hkey
        subst hkey
        simp [alookup]
    · have hkx : ¬ k = x := by
        intro h0
        subst h0
        exact hnd.1 hkr
      rcases hfx : f x with _ | r
      · rw [List.filterMap_cons_none hfx]
        exact ih hnd.2 hkr
      · rw [List.filterMap_cons_some hfx]
        have hkey : r.1 = x := hf x r hfx
        obtain ⟨r1, r2⟩ := r
        simp only at hkey
        subst hkey
        have hxk : ¬ r1 = k := fun h => hkx h.symm
        rw [alookup, if_neg hxk]
        exact ih hnd.2 hkr

theorem floatOfInt_small (t : Int) (h : t.natAbs < 2 ^ 53) :
    floatOfInt t = some t := by
  unfold floatOfInt
  rw [if_pos h]

set_option maxRecDepth 8000 in
/-- C5 counterexample: at `totalInFridges = 2^53 + 1` (reachable, since
quantities come from unbounded `int(text)`), the source converts the
total to a float before halving (src/main.py:244); the conversion rounds
ties-to-even down to `2^53`, so the program recommends
`2^52 = 4503599627370496`, while the claimed exact formula
`max(10, ceil(totalInFridges * 0.5))` gives `2^52 + 1 = 4503599627370497`. -/
theorem check_stock_float_rounding_cex :
    check_stock_levels ⟨[("a", ⟨9007199254740993, none⟩)], [], [], []⟩ 10
      = some [("a", 0, 4503599627370496)]
    ∧ max 10 (ceilHalf 9007199254740993) = 4503599627370497
    ∧ (4503599627370496 : Int) ≠ 4503599627370497 := by
  decide

/-- C5 (amended): with threshold 10, when `check_stock_levels` returns at
all (no float-conversion overflow), an item stocked in some refrigeration
location is listed iff its cupboard quantity (0 when absent) is strictly
below 10; an included item's value is
(cupboard quantity, max(10, ceil(float(totalInFridges) * 0.5))) where
`float` is the IEEE-double conversion of the fridge total, which equals
the exact `totalInFridges` whenever its magnitude is below `2^53`; items
at or above the threshold are absent from the result. -/
theorem check_stock_spec (s : Store) (item : String)
    (h : (alookup (s.getL .refrigerator_1) item).isSome
      ∨ (alookup (s.getL .refrigerator_2) item).isSome
      ∨ (alookup (s.getL .refrigerator_3) item).isSome)
    (res : List (String × Int × Int))
    (hres : check_stock_levels s 10 = some res) :
    (qtyVal (s.getL .cupboard) item < 10 →
      ∃ v : Int,
        floatOfInt (qtyVal (s.getL .refrigerator_1) item
          + qtyVal (s.getL .refrigerator_2) item
          + qtyVal (s.getL .refrigerator_3) item) = some v
        ∧ alookup res item
            = some (qtyVal (s.getL .cupboard) item, max 10 (ceilHalf v))
        ∧ ((qtyVal (s.getL .refrigerator_1) item
            + qtyVal (s.getL .refrigerator_2) item
            + qtyVal (s.getL .refrigerator_3) item).natAbs < 2 ^ 53 →
            v = qtyVal (s.getL .refrigerator_1) item
              + qtyVal (s.getL .refrigerator_2) item
              + qtyVal (s.getL .refrigerator_3) item))
    ∧ (¬ qtyVal (s.getL .cupboard) item < 10 → alookup res item = none) := by
  have hmem : item ∈ fridgeItems s := by
    rw [fridgeItems, List.mem_dedup, List.mem_append, List.mem_append]
    rcases h with h | h | h
    · exact Or.inl (Or.inl ((alookup_isSome_iff _ _).mp h))
    · exact Or.inl (Or.inr ((alookup_isSome_iff _ _).mp h))
    · exact Or.inr ((alookup_isSome_iff _ _).mp h)
  have hf : ∀ x r, stockEntry s 10 x = some r → r.1 = x := by
    intro x r hr
    unfold stockEntry at hr
    split_ifs at hr
    obtain ⟨v, hv, hr2⟩ := Option.map_eq_some'.mp hr
    rw [← hr2]
  unfold check_stock_levels at hres
  by_cases hany : (fridgeItems s).any (stockOverflow s 10) = true
  · rw [if_pos hany] at hres
    exact absurd hres (by simp)
  · rw [if_neg hany] at hres
    injection hres with hres0
    subst hres0
    have hlk : alookup ((fridgeItems s).filterMap (stockEntry s 10)) item
        = (stockEntry s 10 item).map Prod.snd :=
      alookup_filterMap (fridgeItems s) (stockEntry s 10) hf
        (List.nodup_dedup _) item hmem
    constructor
    · intro hcq
      rcases hfo : floatOfInt (qtyVal (s.getL .refrigerator_1) item
          + qtyVal (s.getL .refrigerator_2) item
          + qtyVal (s.getL .refrigerator_3) item) with _ | v
      · exfalso
        apply hany
        rw [List.any_eq_true]
        refine ⟨item, hmem, ?_⟩
        simp [stockOverflow, hcq, hfo]
      · refine ⟨v, rfl, ?_, ?_⟩
        · rw [hlk]
          simp [stockEntry, hcq, hfo]
        · intro hsmall
          have h2 := (floatOfInt_small _ hsmall).symm.trans hfo
          injection h2 with h0
          exact h0.symm
    · intro hcq
      rw [hlk]
      simp [stockEntry, hcq]

theorem check_stock_spec_witness :
    ∃ v : Int,
      floatOfInt (qtyVal ((⟨[("a", ⟨5, none⟩)], [], [], []⟩ : Store).getL .refrigerator_1) "a"
        + qtyVal ((⟨[("a", ⟨5, none⟩)], [], [], []⟩ : Store).getL .refrigerator_2) "a"
        + qtyVal ((⟨[("a", ⟨5, none⟩)], [], [], []⟩ : Store).getL .refrigerator_3) "a") = some v
      ∧ alookup [("a", ((0 : Int), (10 : Int)))] "a"
          = some (qtyVal ((⟨[("a", ⟨5, none⟩)], [], [], []⟩ : Store).getL .cupboard) "a",
              max 10 (ceilHalf v))
      ∧ ((qtyVal ((⟨[("a", ⟨5, none⟩)], [], [], []⟩ : Store).getL .refrigerator_1) "a"
          + qtyVal ((⟨[("a", ⟨5, none⟩)], [], [], []⟩ : Store).getL .refrigerator_2) "a"
          + qtyVal ((⟨[("a", ⟨5, none⟩)], [], [], []⟩ : Store).getL .refrigerator_3) "a").natAbs
            < 2 ^ 53 →
          v = qtyVal ((⟨[("a", ⟨5, none⟩)], [], [], []⟩ : Store).getL .refrigerator_1) "a"
            + qtyVal ((⟨[("a", ⟨5, none⟩)], [], [], []⟩ : Store).getL .refrigerator_2) "a"
            + qtyVal ((⟨[("a", ⟨5, none⟩)], [], [], []⟩ : Store).getL .refrigerator_3) "a") :=
  (check_stock_spec ⟨[("a", ⟨5, none⟩)], [], [], []⟩ "a" (Or.inl (by decide))
    [("a", (0, 10))] (by decide)).1 (by decide)

end Screatch
